import Mathlib

/-!
Verification development for the bolt HTTP-client core: the in-memory data
model (`Request`, `Response`, `Collection`, navigation state), the state
reducer `process` from `yew/src/process/update.rs`, the dispatch/correlation
functions `send_request` and `receive_response` from `yew/src/main.rs`, the
persistence shape `SaveState`, and the seed document from
`cli/src/utils.rs` (`create_state`).

Rust `Vec` indexing, `Vec::remove` and `Vec::insert` panic when the index is
out of range; a panic aborts the transition, so every partial operation is
embedded as an `Option`-returning function and a transition that would panic
is `none`.
-/

/-- Safe positional lookup, embedding Rust `v[i]` reads (`none` = panic). -/
def getAt {α : Type} : List α → Nat → Option α
  | [], _ => none
  | x :: _, 0 => some x
  | _ :: xs, n + 1 => getAt xs n

/-- Positional overwrite, embedding Rust `v[i] = a` (`none` = panic). -/
def setAt {α : Type} : List α → Nat → α → Option (List α)
  | [], _, _ => none
  | _ :: xs, 0, a => some (a :: xs)
  | x :: xs, n + 1, a => (setAt xs n a).map (fun ys => x :: ys)

/-- Positional removal, embedding Rust `Vec::remove(i)` (`none` = panic). -/
def removeAt {α : Type} : List α → Nat → Option (List α)
  | [], _ => none
  | _ :: xs, 0 => some xs
  | x :: xs, n + 1 => (removeAt xs n).map (fun ys => x :: ys)

/-- In-place fallible update of the element at an index, embedding the Rust
pattern `v[i].field = ...` or `v[i].field.remove(j)` (`none` = panic either
because `i` is out of range or because the inner operation panics). -/
def modifyAtF {α : Type} (f : α → Option α) : List α → Nat → Option (List α)
  | [], _ => none
  | x :: xs, 0 => (f x).map (fun y => y :: xs)
  | x :: xs, n + 1 => (modifyAtF f xs n).map (fun ys => x :: ys)

/-- Modelled from the spec: the HTTP method enum (`helpers/enums.rs` is not
under `src/`); the spec lists `enum{GET,POST,PUT,PATCH,DELETE,...}`. -/
inductive Method where
  | GET
  | POST
  | PUT
  | PATCH
  | DELETE
deriving Repr, DecidableEq

/-- The two pages of the application (`Page` in `main.rs`). -/
inductive Page where
  | Home
  | Collections
deriving Repr, DecidableEq

/-- The response content-type tag (`ResponseType` in `main.rs`). -/
inductive ResponseType where
  | TEXT
  | JSON
deriving Repr, DecidableEq

/-- `Response` from `main.rs`: status, body, headers, elapsed time, size,
content type, the correlation index (`request_index`) and the failure flag. -/
structure Response where
  status : Nat
  body : String
  headers : List (List String)
  time : Nat
  size : Nat
  response_type : ResponseType
  request_index : Nat
  failed : Bool
deriving Repr, DecidableEq

/-- `Response::new()` from `main.rs`. -/
def Response.new : Response :=
  { status := 0, body := "", headers := [], time := 0, size := 0,
    response_type := ResponseType.TEXT, request_index := 0, failed := false }

/-- `Request` from `main.rs`. -/
structure Request where
  url : String
  body : String
  headers : List (List String)
  params : List (List String)
  method : Method
  response : Response
  name : String
  req_tab : Nat
  resp_tab : Nat
deriving Repr, DecidableEq

/-- `Request::new()` from `main.rs`: GET, one blank header pair, one blank
param pair, default response, name `"New Request "`. -/
def Request.new : Request :=
  { url := "", body := "", headers := [["", ""]], params := [["", ""]],
    method := Method.GET, response := Response.new,
    name := "New Request ", req_tab := 1, resp_tab := 1 }

/-- `Collection` from `main.rs`. -/
structure Collection where
  name : String
  requests : List Request
  collapsed : Bool
deriving Repr, DecidableEq

/-- `Collection::new()` from `main.rs`. -/
def Collection.new : Collection :=
  { name := "New Collection ", requests := [], collapsed := false }

/-- `BoltContext` from `main.rs`. The `link : Option<Scope<BoltApp>>` UI
callback handle is runtime-only and opaque to the core; it is embedded as
`Option Unit`. `col_current` is a `Vec<usize>` in the source (always of
length 2 in practice) and is embedded as `List Nat` with guarded indexing. -/
structure BoltContext where
  link : Option Unit
  page : Page
  main_current : Nat
  col_current : List Nat
  main_col : Collection
  collections : List Collection
deriving Repr, DecidableEq

/-- `BoltContext::new()` from `main.rs`. -/
def BoltContext.new : BoltContext :=
  { link := none, page := Page.Home, main_current := 0,
    col_current := [0, 0], main_col := Collection.new, collections := [] }

/-- The outbound payload built by `send_request` in `main.rs`. -/
structure Payload where
  url : String
  method : Method
  body : String
  headers : List (List String)
  index : Nat
deriving Repr, DecidableEq

/-- Modelled from the spec: `parse_url` (in `yew/src/utils.rs`, not under
`src/`) merges the request's params into the url's query string. -/
def parse_url (url : String) (params : List (List String)) : String :=
  match params.filter (fun p => p ≠ ["", ""]) with
  | [] => url
  | ps =>
    url ++ "?" ++ String.intercalate "&"
      (ps.map (fun p => String.intercalate "=" p))

/-- `send_request` from `main.rs`: builds the outbound payload from a
snapshot of the request; `index` is the correlation index already stored on
the request's embedded response. The actual dispatch to the executor is an
external effect; the embedding returns the payload handed over. -/
def send_request (request : Request) : Payload :=
  { url := parse_url request.url request.params,
    method := request.method,
    body := request.body,
    headers := request.headers,
    index := request.response.request_index }

/-- `Msg` from `main.rs`. Messages whose Rust arm reads the DOM through an
external getter (`get_url`, `get_body`, `get_method`, `get_header`,
`get_param`) carry the read value as a message argument here, since those
reads are external inputs to the core. -/
inductive Msg where
  | SelectedMethod (m : Method)
  | SendPressed
  | ReqBodyPressed
  | ReqHeadersPressed
  | ReqParamsPressed
  | RespBodyPressed
  | RespHeadersPressed
  | AddHeader
  | RemoveHeader (i : Nat)
  | AddParam
  | RemoveParam (i : Nat)
  | ReceivedResponse
  | MethodChanged (m : Method)
  | UrlChanged (url : String)
  | BodyChanged (body : String)
  | HeaderChanged (i : Nat) (h : List String)
  | ParamChanged (i : Nat) (p : List String)
  | AddRequest
  | RemoveRequest (i : Nat)
  | SelectRequest (i : Nat)
  | AddCollection
  | RemoveCollection (i : Nat)
  | AddToCollection (i : Nat)
  | SelectFromCollection (c : Nat) (r : Nat)
  | RemoveFromCollection (c : Nat) (r : Nat)
  | ToggleCollapsed (i : Nat)
  | Update
  | HelpPressed
  | SwitchPage (p : Page)
  | Nothing
deriving Repr, DecidableEq

/-- The repeated resolve-then-mutate pattern of `update.rs`: when
`page == Home` the target is `main_col.requests[main_current]`, otherwise it
is `collections[col_current[0]].requests[col_current[1]]`; `f` is the
fallible in-place mutation applied to the target request. -/
def updateCurrentF (b : BoltContext) (f : Request → Option Request) :
    Option BoltContext :=
  if b.page = Page.Home then
    match modifyAtF f b.main_col.requests b.main_current with
    | some reqs =>
      some { b with main_col := { b.main_col with requests := reqs } }
    | none => none
  else
    match getAt b.col_current 0, getAt b.col_current 1 with
    | some c0, some c1 =>
      match getAt b.collections c0 with
      | some col =>
        match modifyAtF f col.requests c1 with
        | some reqs =>
          match setAt b.collections c0 { col with requests := reqs } with
          | some cols => some { b with collections := cols }
          | none => none
        | none => none
      | none => none
    | _, _ => none

/-- The addressing resolver of the spec's §4.2, as it appears inline in every
arm of `update.rs`: the currently addressed request. -/
def resolveTarget (b : BoltContext) : Option Request :=
  if b.page = Page.Home then
    getAt b.main_col.requests b.main_current
  else
    match getAt b.col_current 0, getAt b.col_current 1 with
    | some c0, some c1 =>
      match getAt b.collections c0 with
      | some col => getAt col.requests c1
      | none => none
    | _, _ => none

/-- `process` from `update.rs`: the state reducer. Returns the next state,
the needs-redraw flag, and the list of payloads handed to the external
request executor during the transition (`send_request` calls); `none` embeds
a Rust panic (index out of bounds). -/
def process (b : BoltContext) (msg : Msg) :
    Option (BoltContext × Bool × List Payload) :=
  match msg with
  | Msg.Nothing => some (b, false, [])
  | Msg.SelectedMethod m =>
    (updateCurrentF b (fun req => some { req with method := m })).map
      (fun b2 => (b2, true, []))
  | Msg.SendPressed =>
    (resolveTarget b).map (fun req => (b, true, [send_request req]))
  | Msg.HelpPressed => some (b, true, [])
  | Msg.ReqBodyPressed =>
    (updateCurrentF b (fun req => some { req with req_tab := 1 })).map
      (fun b2 => (b2, true, []))
  | Msg.ReqHeadersPressed =>
    (updateCurrentF b (fun req => some { req with req_tab := 3 })).map
      (fun b2 => (b2, true, []))
  | Msg.ReqParamsPressed =>
    (updateCurrentF b (fun req => some { req with req_tab := 2 })).map
      (fun b2 => (b2, true, []))
  | Msg.RespBodyPressed =>
    (updateCurrentF b (fun req => some { req with resp_tab := 1 })).map
      (fun b2 => (b2, true, []))
  | Msg.RespHeadersPressed =>
    (updateCurrentF b (fun req => some { req with resp_tab := 2 })).map
      (fun b2 => (b2, true, []))
  | Msg.ReceivedResponse => some (b, true, [])
  | Msg.AddHeader =>
    (updateCurrentF b
      (fun req => some { req with headers := req.headers ++ [["", ""]] })).map
      (fun b2 => (b2, true, []))
  | Msg.RemoveHeader i =>
    (updateCurrentF b
      (fun req => (removeAt req.headers i).map
        (fun hs => { req with headers := hs }))).map
      (fun b2 => (b2, true, []))
  | Msg.AddParam =>
    (updateCurrentF b
      (fun req => some { req with params := req.params ++ [["", ""]] })).map
      (fun b2 => (b2, true, []))
  | Msg.AddCollection =>
    some ({ b with collections := b.collections ++
      [{ Collection.new with
          name := Collection.new.name ++ toString (b.collections.length + 1) }] },
      true, [])
  | Msg.RemoveCollection i =>
    (removeAt b.collections i).map
      (fun cols => ({ b with collections := cols, col_current := [0, 0] },
        true, []))
  | Msg.RemoveParam i =>
    (updateCurrentF b
      (fun req => (removeAt req.params i).map
        (fun ps => { req with params := ps }))).map
      (fun b2 => (b2, true, []))
  | Msg.MethodChanged m =>
    (updateCurrentF b (fun req => some { req with method := m })).map
      (fun b2 => (b2, true, []))
  | Msg.UrlChanged url =>
    (updateCurrentF b
      (fun req => some { req with url := url, name := url })).map
      (fun b2 => (b2, true, []))
  | Msg.BodyChanged body =>
    (updateCurrentF b (fun req => some { req with body := body })).map
      (fun b2 => (b2, true, []))
  | Msg.HeaderChanged i h =>
    (updateCurrentF b
      (fun req => (setAt req.headers i h).map
        (fun hs => { req with headers := hs }))).map
      (fun b2 => (b2, true, []))
  | Msg.ParamChanged i p =>
    (updateCurrentF b
      (fun req => (setAt req.params i p).map
        (fun ps => { req with params := ps }))).map
      (fun b2 => (b2, true, []))
  | Msg.AddRequest =>
    some ({ b with main_col := { b.main_col with requests :=
      b.main_col.requests ++
        [{ Request.new with
            name := Request.new.name ++
              toString (b.main_col.requests.length + 1) }] } },
      true, [])
  | Msg.AddToCollection i =>
    (modifyAtF
      (fun col => some { col with requests := col.requests ++
        [{ Request.new with
            name := Request.new.name ++ toString (col.requests.length + 1) }] })
      b.collections i).map
      (fun cols => ({ b with collections := cols }, true, []))
  | Msg.ToggleCollapsed i =>
    (modifyAtF (fun col => some { col with collapsed := !col.collapsed })
      b.collections i).map
      (fun cols => ({ b with collections := cols }, true, []))
  | Msg.RemoveRequest i =>
    (removeAt b.main_col.requests i).map (fun reqs =>
      let mc :=
        if reqs.length > 0 ∧ b.main_current > reqs.length - 1 then
          reqs.length - 1
        else b.main_current
      ({ b with
          main_col := { b.main_col with requests := reqs },
          main_current := mc }, true, []))
  | Msg.RemoveFromCollection c r =>
    (modifyAtF (fun col => (removeAt col.requests r).map
        (fun reqs => { col with requests := reqs }))
      b.collections c).map
      (fun cols => ({ b with collections := cols, col_current := [0, 0] },
        true, []))
  | Msg.SelectRequest i =>
    (modifyAtF
      (fun req => some { req with response :=
        { req.response with request_index := i } })
      b.main_col.requests i).map
      (fun reqs => ({ b with
        main_current := i,
        main_col := { b.main_col with requests := reqs } }, true, []))
  | Msg.SelectFromCollection c r =>
    (modifyAtF
      (fun col =>
        (modifyAtF
          (fun req => some { req with response :=
            { req.response with request_index := r } })
          col.requests r).map (fun reqs => { col with requests := reqs }))
      b.collections c).map
      (fun cols => ({ b with
        col_current := [c, r],
        collections := cols }, true, []))
  | Msg.Update => some (b, true, [])
  | Msg.SwitchPage p => some ({ b with page := p }, true, [])

/-- The body transform applied by `receive_response` in `main.rs`: when the
payload's content type is JSON, the external pretty-printer `format_json`
(`fmt`) and then the external `highlight_body` (`hl`) are applied to the
body; a TEXT body is kept as-is. The transforms live in `yew/src/utils.rs`
(not under `src/`) and are passed as parameters. -/
def processPayload (fmt hl : String → String) (resp : Response) : Response :=
  if resp.response_type = ResponseType.JSON then
    { resp with body := hl (fmt resp.body) }
  else resp

/-- `receive_response` from `main.rs` (after the external `serde_json` parse
of the inbound event payload, which is taken here as the already-parsed
`resp`). When `page == Home` the write target is
`main_col.requests[resp.request_index]` — the slot named by the payload's
correlation index; otherwise it is
`collections[col_current[0]].requests[col_current[1]]`. The trailing
`link.send_message(Msg::Update)` redraw is an external effect. -/
def receive_response (fmt hl : String → String) (b : BoltContext)
    (resp : Response) : Option BoltContext :=
  let response := processPayload fmt hl resp
  if b.page = Page.Home then
    (modifyAtF (fun req => some { req with response := response })
      b.main_col.requests response.request_index).map
      (fun reqs =>
        { b with main_col := { b.main_col with requests := reqs } })
  else
    match getAt b.col_current 0, getAt b.col_current 1 with
    | some c0, some c1 =>
      (modifyAtF (fun col =>
          (modifyAtF (fun req => some { req with response := response })
            col.requests c1).map
            (fun reqs => { col with requests := reqs }))
        b.collections c0).map
        (fun cols => { b with collections := cols })
    | _, _ => none

/-- Modelled from the spec: the on-disk document shape. The persisted state
file is a structured JSON document (`state.json`); this small JSON value
type stands for the serialized byte stream, with the external text
printing/parsing (`serde_json`) out of scope. -/
inductive Json where
  | str : String → Json
  | num : Nat → Json
  | bool : Bool → Json
  | arr : List Json → Json
  | obj : List (String × Json) → Json

/-- Serialization of the HTTP method tag. -/
def Method.toJson : Method → Json
  | Method.GET => Json.str "GET"
  | Method.POST => Json.str "POST"
  | Method.PUT => Json.str "PUT"
  | Method.PATCH => Json.str "PATCH"
  | Method.DELETE => Json.str "DELETE"

/-- Deserialization of the HTTP method tag. -/
def Method.fromJson : Json → Option Method
  | Json.str "GET" => some Method.GET
  | Json.str "POST" => some Method.POST
  | Json.str "PUT" => some Method.PUT
  | Json.str "PATCH" => some Method.PATCH
  | Json.str "DELETE" => some Method.DELETE
  | _ => none

/-- Serialization of the page tag. -/
def Page.toJson : Page → Json
  | Page.Home => Json.str "Home"
  | Page.Collections => Json.str "Collections"

/-- Deserialization of the page tag. -/
def Page.fromJson : Json → Option Page
  | Json.str "Home" => some Page.Home
  | Json.str "Collections" => some Page.Collections
  | _ => none

/-- Serialization of the content-type tag. -/
def ResponseType.toJson : ResponseType → Json
  | ResponseType.TEXT => Json.str "TEXT"
  | ResponseType.JSON => Json.str "JSON"

/-- Deserialization of the content-type tag. -/
def ResponseType.fromJson : Json → Option ResponseType
  | Json.str "TEXT" => some ResponseType.TEXT
  | Json.str "JSON" => some ResponseType.JSON
  | _ => none

/-- Element-wise decoding of a JSON array body, failing if any element
fails. -/
def decodeListWith {α : Type} (dec : Json → Option α) : List Json → Option (List α)
  | [] => some []
  | x :: xs =>
    match dec x, decodeListWith dec xs with
    | some a, some as => some (a :: as)
    | _, _ => none

/-- Serialization of a `Vec<String>` (one header/param pair). -/
def encodeStrList (l : List String) : Json :=
  Json.arr (l.map Json.str)

/-- Deserialization of a `Vec<String>`. -/
def decodeStrList : Json → Option (List String)
  | Json.arr xs =>
    decodeListWith (fun j => match j with
      | Json.str s => some s
      | _ => none) xs
  | _ => none

/-- Serialization of a `Vec<Vec<String>>` (headers/params). -/
def encodePairs (l : List (List String)) : Json :=
  Json.arr (l.map encodeStrList)

/-- Deserialization of a `Vec<Vec<String>>`. -/
def decodePairs : Json → Option (List (List String))
  | Json.arr xs => decodeListWith decodeStrList xs
  | _ => none

/-- Serialization of a `Vec<usize>` (`col_current`). -/
def encodeNatList (l : List Nat) : Json :=
  Json.arr (l.map Json.num)

/-- Deserialization of a `Vec<usize>`. -/
def decodeNatList : Json → Option (List Nat)
  | Json.arr xs =>
    decodeListWith (fun j => match j with
      | Json.num n => some n
      | _ => none) xs
  | _ => none

/-- Serialization of a `Response`, field for field in declaration order as
`serde` derives it. -/
def Response.toJson (r : Response) : Json :=
  Json.obj [("status", Json.num r.status), ("body", Json.str r.body),
    ("headers", encodePairs r.headers), ("time", Json.num r.time),
    ("size", Json.num r.size), ("response_type", r.response_type.toJson),
    ("request_index", Json.num r.request_index),
    ("failed", Json.bool r.failed)]

/-- Deserialization of a `Response`; any other shape is a parse failure
(`CorruptState`). -/
def Response.fromJson : Json → Option Response
  | Json.obj [("status", Json.num status), ("body", Json.str body),
      ("headers", hs), ("time", Json.num time), ("size", Json.num size),
      ("response_type", rt), ("request_index", Json.num ri),
      ("failed", Json.bool failed)] =>
    match decodePairs hs, ResponseType.fromJson rt with
    | some headers, some t =>
      some { status := status, body := body, headers := headers,
             time := time, size := size, response_type := t,
             request_index := ri, failed := failed }
    | _, _ => none
  | _ => none

/-- Serialization of a `Request`. -/
def Request.toJson (r : Request) : Json :=
  Json.obj [("url", Json.str r.url), ("body", Json.str r.body),
    ("headers", encodePairs r.headers), ("params", encodePairs r.params),
    ("method", r.method.toJson), ("response", r.response.toJson),
    ("name", Json.str r.name), ("req_tab", Json.num r.req_tab),
    ("resp_tab", Json.num r.resp_tab)]

/-- Deserialization of a `Request`. -/
def Request.fromJson : Json → Option Request
  | Json.obj [("url", Json.str url), ("body", Json.str body),
      ("headers", hs), ("params", ps), ("method", me), ("response", re),
      ("name", Json.str name), ("req_tab", Json.num rqt),
      ("resp_tab", Json.num rst)] =>
    match decodePairs hs, decodePairs ps, Method.fromJson me,
        Response.fromJson re with
    | some headers, some params, some method, some response =>
      some { url := url, body := body, headers := headers, params := params,
             method := method, response := response, name := name,
             req_tab := rqt, resp_tab := rst }
    | _, _, _, _ => none
  | _ => none

/-- Serialization of a `Collection`. -/
def Collection.toJson (c : Collection) : Json :=
  Json.obj [("name", Json.str c.name),
    ("requests", Json.arr (c.requests.map Request.toJson)),
    ("collapsed", Json.bool c.collapsed)]

/-- Deserialization of a `Collection`. -/
def Collection.fromJson : Json → Option Collection
  | Json.obj [("name", Json.str name), ("requests", Json.arr reqs),
      ("collapsed", Json.bool collapsed)] =>
    match decodeListWith Request.fromJson reqs with
    | some requests =>
      some { name := name, requests := requests, collapsed := collapsed }
    | none => none
  | _ => none

/-- `SaveState` from `main.rs`: the serialized shape of the application
state — everything in `BoltContext` except the runtime-only `link`. -/
structure SaveState where
  page : Page
  main_current : Nat
  col_current : List Nat
  main_col : Collection
  collections : List Collection
deriving Repr, DecidableEq

/-- Serialization of a `SaveState`. -/
def SaveState.toJson (s : SaveState) : Json :=
  Json.obj [("page", s.page.toJson),
    ("main_current", Json.num s.main_current),
    ("col_current", encodeNatList s.col_current),
    ("main_col", s.main_col.toJson),
    ("collections", Json.arr (s.collections.map Collection.toJson))]

/-- Deserialization of a `SaveState`. -/
def SaveState.fromJson : Json → Option SaveState
  | Json.obj [("page", pg), ("main_current", Json.num mc),
      ("col_current", cc), ("main_col", mcol), ("collections", Json.arr cols)] =>
    match Page.fromJson pg, decodeNatList cc, Collection.fromJson mcol,
        decodeListWith Collection.fromJson cols with
    | some page, some col_current, some main_col, some collections =>
      some { page := page, main_current := mc, col_current := col_current,
             main_col := main_col, collections := collections }
    | _, _, _, _ => none
  | _ => none

/-- Modelled from the spec: `serialize(state)` (`save_state` lives in
`yew/src/utils.rs`, not under `src/`) emits `page`, `main_current`,
`col_current`, the working collection and the collections list through the
`SaveState` shape declared in `main.rs`; the `link` handle is never
serialized. -/
def serializeState (b : BoltContext) : Json :=
  SaveState.toJson
    { page := b.page, main_current := b.main_current,
      col_current := b.col_current, main_col := b.main_col,
      collections := b.collections }

/-- Modelled from the spec: `deserialize(bytes)` (`restore_state` lives in
`yew/src/utils.rs`, not under `src/`) parses a persisted document back into
the application state; the runtime `link` starts out unset. -/
def deserializeState (j : Json) : Option BoltContext :=
  (SaveState.fromJson j).map (fun s =>
    { link := none, page := s.page, main_current := s.main_current,
      col_current := s.col_current, main_col := s.main_col,
      collections := s.collections })

/-- The seed document written by `create_state` in `cli/src/utils.rs`,
transcribed field for field from the JSON literal in the source. -/
def create_state_json : Json :=
  Json.obj [("page", Json.str "Home"),
    ("main_current", Json.num 0),
    ("col_current", Json.arr [Json.num 0, Json.num 0]),
    ("main_col", Json.obj [("name", Json.str "New Collection "),
      ("requests", Json.arr [Json.obj [("url", Json.str ""),
        ("body", Json.str ""),
        ("headers", Json.arr [Json.arr [Json.str "", Json.str ""]]),
        ("params", Json.arr [Json.arr [Json.str "", Json.str ""]]),
        ("method", Json.str "GET"),
        ("response", Json.obj [("status", Json.num 0),
          ("body", Json.str ""), ("headers", Json.arr []),
          ("time", Json.num 0), ("size", Json.num 0),
          ("response_type", Json.str "TEXT"),
          ("request_index", Json.num 0), ("failed", Json.bool false)]),
        ("name", Json.str "New Request "), ("req_tab", Json.num 1),
        ("resp_tab", Json.num 1)]]),
      ("collapsed", Json.bool false)]),
    ("collections", Json.arr [])]

/-- The misrouted-response scenario of the spec's §8: select index 0, Send,
select index 1, then deliver a response carrying the correlation index of
the Send payload. Returns the final state and the payload's correlation
index. -/
def misroutedScenario (fmt hl : String → String) (b : BoltContext)
    (resp : Response) : Option (BoltContext × Nat) := do
  let (b1, _, _) ← process b (Msg.SelectRequest 0)
  let (b1b, _, sends) ← process b1 Msg.SendPressed
  let (b2, _, _) ← process b1b (Msg.SelectRequest 1)
  let p ← getAt sends 0
  let b3 ← receive_response fmt hl b2 { resp with request_index := p.index }
  some (b3, p.index)

/-- The per-request shape invariant of the spec's §3: headers and params are
never empty. -/
def ReqOK (r : Request) : Prop :=
  r.headers ≠ [] ∧ r.params ≠ []

/-- `ReqOK` over every request reachable in the state: the working
collection and every named collection. -/
def StateOK (b : BoltContext) : Prop :=
  (∀ r ∈ b.main_col.requests, ReqOK r) ∧
  (∀ c ∈ b.collections, ∀ r ∈ c.requests, ReqOK r)

/-- The §4.3 caller contract: remove-header/remove-param is only invoked
when the resolved target still has at least two rows. -/
def removeOk (b : BoltContext) (msg : Msg) : Bool :=
  match msg with
  | Msg.RemoveHeader _ =>
    Option.all (fun req => decide (2 ≤ req.headers.length)) (resolveTarget b)
  | Msg.RemoveParam _ =>
    Option.all (fun req => decide (2 ≤ req.params.length)) (resolveTarget b)
  | _ => true

/-- The working-collection selection invariant of the spec's §3, in the
inductively preserved form: in range when the collection is non-empty, and
pinned to 0 when it is empty. -/
def MainInv (b : BoltContext) : Prop :=
  (b.main_col.requests ≠ [] →
    b.main_current < b.main_col.requests.length) ∧
  (b.main_col.requests = [] → b.main_current = 0)

/-- An action of the add-request/remove-request family. -/
def isAddRemove : Msg → Bool
  | Msg.AddRequest => true
  | Msg.RemoveRequest _ => true
  | _ => false

instance (r : Request) : Decidable (ReqOK r) := by
  unfold ReqOK; infer_instance

instance (b : BoltContext) : Decidable (StateOK b) := by
  unfold StateOK; infer_instance

instance (b : BoltContext) : Decidable (MainInv b) := by
  unfold MainInv; infer_instance

/-- Runs a sequence of messages through the reducer, failing if any
transition panics; the payloads handed to the executor are dropped. -/
def runSeq (b : BoltContext) : List Msg → Option BoltContext
  | [] => some b
  | msg :: rest =>
    match process b msg with
    | some (b2, _, _) => runSeq b2 rest
    | none => none

/-- A concrete second request. -/
def secondReq : Request :=
  { Request.new with name := "second" }

/-- A concrete Home-page state whose working collection holds two
requests. -/
def cHome2 : BoltContext :=
  { BoltContext.new with main_col :=
    { Collection.new with requests := [Request.new, secondReq] } }

/-- A concrete Home-page state whose selected request has two header rows. -/
def cTwoHeaders : BoltContext :=
  { BoltContext.new with main_col :=
    { Collection.new with requests :=
      [{ Request.new with headers := [["a", "b"], ["", ""]] }] } }

/-- A concrete Collections-page state with one collection of one request. -/
def cCols : BoltContext :=
  { BoltContext.new with
    page := Page.Collections,
    collections := [{ Collection.new with requests := [Request.new] }] }

/-- The state reached from the fresh context by add, add, remove 1. -/
def cw3 : BoltContext :=
  { BoltContext.new with main_col :=
    { Collection.new with requests :=
      [{ Request.new with name := "New Request 1" }] } }

/-- A concrete incoming response payload. -/
def cResp200 : Response :=
  { Response.new with status := 200, body := "hello" }

theorem getAt_mem {α : Type} {l : List α} {i : Nat} {a : α}
    (h : getAt l i = some a) : a ∈ l := by
  induction l generalizing i with
  | nil => simp [getAt] at h
  | cons x xs ih =>
    cases i with
    | zero => simp [getAt] at h; simp [h]
    | succ n =>
      simp only [getAt] at h
      exact List.mem_cons_of_mem x (ih h)

theorem length_setAt {α : Type} {l l' : List α} {i : Nat} {a : α}
    (h : setAt l i a = some l') : l'.length = l.length := by
  induction l generalizing i l' with
  | nil => simp [setAt] at h
  | cons x xs ih =>
    cases i with
    | zero => simp [setAt] at h; simp [← h]
    | succ n =>
      simp only [setAt, Option.map_eq_some'] at h
      obtain ⟨ys, hy, rfl⟩ := h
      simp [ih hy]

theorem mem_setAt {α : Type} {l l' : List α} {i : Nat} {a b : α}
    (h : setAt l i a = some l') (hb : b ∈ l') : b = a ∨ b ∈ l := by
  induction l generalizing i l' with
  | nil => simp [setAt] at h
  | cons x xs ih =>
    cases i with
    | zero =>
      simp [setAt] at h
      subst h
      rcases List.mem_cons.mp hb with h1 | h1
      · exact Or.inl h1
      · exact Or.inr (List.mem_cons_of_mem x h1)
    | succ n =>
      simp only [setAt, Option.map_eq_some'] at h
      obtain ⟨ys, hy, rfl⟩ := h
      rcases List.mem_cons.mp hb with h1 | h1
      · exact Or.inr (by simp [h1])
      · rcases ih hy h1 with h2 | h2
        · exact Or.inl h2
        · exact Or.inr (List.mem_cons_of_mem x h2)

theorem getAt_setAt_self {α : Type} {l l' : List α} {i : Nat} {a : α}
    (h : setAt l i a = some l') : getAt l' i = some a := by
  induction l generalizing i l' with
  | nil => simp [setAt] at h
  | cons x xs ih =>
    cases i with
    | zero => simp [setAt] at h; simp [← h, getAt]
    | succ n =>
      simp only [setAt, Option.map_eq_some'] at h
      obtain ⟨ys, hy, rfl⟩ := h
      simpa [getAt] using ih hy

theorem setAt_of_getAt {α : Type} {l : List α} {i : Nat} {a : α}
    (h : getAt l i = some a) (b : α) : ∃ l', setAt l i b = some l' := by
  induction l generalizing i with
  | nil => simp [getAt] at h
  | cons x xs ih =>
    cases i with
    | zero => exact ⟨b :: xs, rfl⟩
    | succ n =>
      simp only [getAt] at h
      obtain ⟨ys, hy⟩ := ih h
      exact ⟨x :: ys, by simp [setAt, hy]⟩

theorem length_removeAt {α : Type} {l l' : List α} {i : Nat}
    (h : removeAt l i = some l') : l.length = l'.length + 1 := by
  induction l generalizing i l' with
  | nil => simp [removeAt] at h
  | cons x xs ih =>
    cases i with
    | zero => simp [removeAt] at h; simp [← h]
    | succ n =>
      simp only [removeAt, Option.map_eq_some'] at h
      obtain ⟨ys, hy, rfl⟩ := h
      simp [ih hy]

theorem mem_removeAt {α : Type} {l l' : List α} {i : Nat} {b : α}
    (h : removeAt l i = some l') (hb : b ∈ l') : b ∈ l := by
  induction l generalizing i l' with
  | nil => simp [removeAt] at h
  | cons x xs ih =>
    cases i with
    | zero =>
      simp [removeAt] at h
      subst h
      exact List.mem_cons_of_mem x hb
    | succ n =>
      simp only [removeAt, Option.map_eq_some'] at h
      obtain ⟨ys, hy, rfl⟩ := h
      rcases List.mem_cons.mp hb with h1 | h1
      · simp [h1]
      · exact List.mem_cons_of_mem x (ih hy h1)

theorem modifyAtF_eq_some {α : Type} {f : α → Option α} {l l' : List α}
    {i : Nat} (h : modifyAtF f l i = some l') :
    ∃ a a', getAt l i = some a ∧ f a = some a' ∧ setAt l i a' = some l' := by
  induction l generalizing i l' with
  | nil => simp [modifyAtF] at h
  | cons x xs ih =>
    cases i with
    | zero =>
      simp only [modifyAtF, Option.map_eq_some'] at h
      obtain ⟨y, hy, rfl⟩ := h
      exact ⟨x, y, rfl, hy, rfl⟩
    | succ n =>
      simp only [modifyAtF, Option.map_eq_some'] at h
      obtain ⟨ys, hy, rfl⟩ := h
      obtain ⟨a, a', h1, h2, h3⟩ := ih hy
      exact ⟨a, a', h1, h2, by simp [setAt, h3]⟩

theorem modifyAtF_of {α : Type} {f : α → Option α} {l l' : List α}
    {i : Nat} {a a' : α} (hg : getAt l i = some a) (hf : f a = some a')
    (hs : setAt l i a' = some l') : modifyAtF f l i = some l' := by
  induction l generalizing i l' with
  | nil => simp [getAt] at hg
  | cons x xs ih =>
    cases i with
    | zero =>
      simp [getAt] at hg
      subst hg
      simp [setAt] at hs
      simp [modifyAtF, hf, hs]
    | succ n =>
      simp only [getAt] at hg
      simp only [setAt, Option.map_eq_some'] at hs
      obtain ⟨ys, hy, rfl⟩ := hs
      simp [modifyAtF, ih hg hy]

theorem mem_modifyAtF {α : Type} {f : α → Option α} {l l' : List α}
    {i : Nat} {b : α} (h : modifyAtF f l i = some l') (hb : b ∈ l') :
    b ∈ l ∨ ∃ a, getAt l i = some a ∧ f a = some b := by
  obtain ⟨a, a', h1, h2, h3⟩ := modifyAtF_eq_some h
  rcases mem_setAt h3 hb with h4 | h4
  · exact Or.inr ⟨a, h1, by simp [h2, h4]⟩
  · exact Or.inl h4

theorem resolveTarget_home {b : BoltContext} (hp : b.page = Page.Home) :
    resolveTarget b = getAt b.main_col.requests b.main_current := by
  unfold resolveTarget
  rw [if_pos hp]

theorem resolveTarget_col {b : BoltContext} {c0 c1 : Nat} {col : Collection}
    (hp : b.page ≠ Page.Home) (hc0 : getAt b.col_current 0 = some c0)
    (hc1 : getAt b.col_current 1 = some c1)
    (hcol : getAt b.collections c0 = some col) :
    resolveTarget b = getAt col.requests c1 := by
  unfold resolveTarget
  rw [if_neg hp]
  simp only [hc0, hc1, hcol]

theorem updateCurrentF_home {b : BoltContext} {f : Request → Option Request}
    {req req' : Request} {reqs : List Request}
    (hp : b.page = Page.Home)
    (hg : getAt b.main_col.requests b.main_current = some req)
    (hf : f req = some req')
    (hs : setAt b.main_col.requests b.main_current req' = some reqs) :
    updateCurrentF b f =
      some { b with main_col := { b.main_col with requests := reqs } } := by
  unfold updateCurrentF
  rw [if_pos hp, modifyAtF_of hg hf hs]

theorem updateCurrentF_col {b : BoltContext} {f : Request → Option Request}
    {c0 c1 : Nat} {col : Collection} {req req' : Request}
    {reqs : List Request} {cols : List Collection}
    (hp : b.page ≠ Page.Home)
    (hc0 : getAt b.col_current 0 = some c0)
    (hc1 : getAt b.col_current 1 = some c1)
    (hcol : getAt b.collections c0 = some col)
    (hg : getAt col.requests c1 = some req)
    (hf : f req = some req')
    (hs : setAt col.requests c1 req' = some reqs)
    (hcs : setAt b.collections c0 { col with requests := reqs } = some cols) :
    updateCurrentF b f = some { b with collections := cols } := by
  unfold updateCurrentF
  rw [if_neg hp]
  simp only [hc0, hc1, hcol, modifyAtF_of hg hf hs, hcs]

theorem updateCurrentF_pres {b b' : BoltContext} {f : Request → Option Request}
    (hok : StateOK b) (h : updateCurrentF b f = some b')
    (hf : ∀ r r', resolveTarget b = some r → ReqOK r → f r = some r' →
      ReqOK r') : StateOK b' := by
  unfold updateCurrentF at h
  by_cases hp : b.page = Page.Home
  · rw [if_pos hp] at h
    cases hm : modifyAtF f b.main_col.requests b.main_current with
    | none => rw [hm] at h; cases h
    | some reqs =>
      rw [hm] at h
      replace h := Option.some.inj h
      subst h
      refine ⟨?_, ?_⟩
      · intro r hr
        rcases mem_modifyAtF hm hr with h1 | ⟨a, hga, hfa⟩
        · exact hok.1 r h1
        · exact hf a r (by rw [resolveTarget_home hp, hga])
            (hok.1 a (getAt_mem hga)) hfa
      · intro c hc
        exact hok.2 c hc
  · rw [if_neg hp] at h
    cases h0 : getAt b.col_current 0 with
    | none => simp [h0] at h
    | some c0 =>
      cases h1 : getAt b.col_current 1 with
      | none => simp [h0, h1] at h
      | some c1 =>
        simp only [h0, h1] at h
        cases hc : getAt b.collections c0 with
        | none => simp [hc] at h
        | some col =>
          simp only [hc] at h
          cases hm : modifyAtF f col.requests c1 with
          | none => simp [hm] at h
          | some reqs =>
            simp only [hm] at h
            cases hs : setAt b.collections c0 { col with requests := reqs } with
            | none => simp [hs] at h
            | some cols =>
              simp only [hs] at h
              replace h := Option.some.inj h
              subst h
              refine ⟨fun r hr => hok.1 r hr, ?_⟩
              intro c hcm r hr
              rcases mem_setAt hs hcm with h2 | h2
              · subst h2
                rcases mem_modifyAtF hm hr with h3 | ⟨a, hga, hfa⟩
                · exact hok.2 col (getAt_mem hc) r h3
                · exact hf a r (by rw [resolveTarget_col hp h0 h1 hc, hga])
                    (hok.2 col (getAt_mem hc) a (getAt_mem hga)) hfa
              · exact hok.2 c h2 r hr

theorem decodeListWith_map {α : Type} (dec : Json → Option α)
    (enc : α → Json) (xs : List α) (h : ∀ x ∈ xs, dec (enc x) = some x) :
    decodeListWith dec (xs.map enc) = some xs := by
  induction xs with
  | nil => rfl
  | cons x rest ih =>
    simp only [List.map_cons, decodeListWith]
    rw [h x (List.mem_cons_self x rest), ih (fun y hy =>
      h y (List.mem_cons_of_mem x hy))]

theorem method_json_roundtrip (m : Method) :
    Method.fromJson m.toJson = some m := by
  cases m <;> rfl

theorem page_json_roundtrip (p : Page) : Page.fromJson p.toJson = some p := by
  cases p <;> rfl

theorem responseType_json_roundtrip (t : ResponseType) :
    ResponseType.fromJson t.toJson = some t := by
  cases t <;> rfl

theorem decodeStrList_enc (l : List String) :
    decodeStrList (encodeStrList l) = some l := by
  unfold encodeStrList decodeStrList
  exact decodeListWith_map _ Json.str l (fun x _ => rfl)

theorem decodePairs_enc (l : List (List String)) :
    decodePairs (encodePairs l) = some l := by
  unfold encodePairs decodePairs
  exact decodeListWith_map _ encodeStrList l
    (fun x _ => decodeStrList_enc x)

theorem decodeNatList_enc (l : List Nat) :
    decodeNatList (encodeNatList l) = some l := by
  unfold encodeNatList decodeNatList
  exact decodeListWith_map _ Json.num l (fun x _ => rfl)

theorem response_json_roundtrip (r : Response) :
    Response.fromJson r.toJson = some r := by
  simp [Response.toJson, Response.fromJson, decodePairs_enc,
    responseType_json_roundtrip]

theorem request_json_roundtrip (r : Request) :
    Request.fromJson r.toJson = some r := by
  simp [Request.toJson, Request.fromJson, decodePairs_enc,
    method_json_roundtrip, response_json_roundtrip]

theorem collection_json_roundtrip (c : Collection) :
    Collection.fromJson c.toJson = some c := by
  simp [Collection.toJson, Collection.fromJson,
    decodeListWith_map Request.fromJson Request.toJson c.requests
      (fun x _ => request_json_roundtrip x)]

theorem saveState_json_roundtrip (s : SaveState) :
    SaveState.fromJson s.toJson = some s := by
  simp [SaveState.toJson, SaveState.fromJson, page_json_roundtrip,
    decodeNatList_enc, collection_json_roundtrip,
    decodeListWith_map Collection.fromJson Collection.toJson s.collections
      (fun x _ => collection_json_roundtrip x)]

/-- Claim C8: for every state, deserializing the serialization of the state
yields the state back, where equality excludes the runtime-only `link`
handle (never serialized; it comes back unset): the serialized form carries
`page`, `main_current`, `col_current`, the working collection and the
collections list. -/
theorem c8_serialize_roundtrip (b : BoltContext) :
    deserializeState (serializeState b) = some { b with link := none } := by
  simp [serializeState, deserializeState, saveState_json_roundtrip]

/-- Claim C6 (corrected): deserializing the seed document written by
`create_state` yields page Home, selection 0, collection selection (0,0),
no named collections, and a working collection holding exactly one default
request — whose name is the literal `"New Request "` (trailing space, no
numeral), not `"New Request 1"`. -/
theorem c6_seed_state :
    deserializeState create_state_json = some
      { BoltContext.new with main_col :=
        { Collection.new with requests := [Request.new] } } ∧
    BoltContext.new.page = Page.Home ∧
    BoltContext.new.main_current = 0 ∧
    BoltContext.new.col_current = [0, 0] ∧
    BoltContext.new.collections = [] ∧
    Request.new.name = "New Request " := by
  refine ⟨by decide, rfl, rfl, rfl, rfl, rfl⟩

/-- Claim C6, counterexample to the claim as stated: the single request in
the deserialized seed document is named `"New Request "`, not
`"New Request 1"`. -/
theorem c6_counterexample :
    (deserializeState create_state_json).map
      (fun b => b.main_col.requests.map Request.name) =
      some ["New Request "] ∧
    ("New Request " : String) ≠ "New Request 1" := by
  refine ⟨by decide, by decide⟩

/-- Claim C4: removing any collection, or any request within a collection,
unconditionally resets `col_current` to `[0, 0]`, whichever index was
removed and whatever the previous selection was. -/
theorem c4_unconditional_reset :
    (∀ (b : BoltContext) (i : Nat) (out : BoltContext × Bool × List Payload),
      process b (Msg.RemoveCollection i) = some out →
        out.1.col_current = [0, 0]) ∧
    (∀ (b : BoltContext) (c r : Nat)
        (out : BoltContext × Bool × List Payload),
      process b (Msg.RemoveFromCollection c r) = some out →
        out.1.col_current = [0, 0]) := by
  constructor
  · intro b i out h
    simp only [process, Option.map_eq_some'] at h
    obtain ⟨cols, _, rfl⟩ := h
    rfl
  · intro b c r out h
    simp only [process, Option.map_eq_some'] at h
    obtain ⟨cols, _, rfl⟩ := h
    rfl

/-- Claim C4 witness: removing collection 0 of a concrete two-collection
state with selection (1, 0) resets the selection to (0, 0). -/
theorem c4_witness :
    (({ cCols with collections := [], col_current := [0, 0] },
      true, ([] : List Payload)).1.col_current = [0, 0]) :=
  c4_unconditional_reset.1 cCols 0
    ({ cCols with collections := [], col_current := [0, 0] }, true, [])
    (by decide)

/-- Claim C9: when the current selection resolves, Send leaves the whole
state unchanged and hands the executor exactly one payload: the snapshot of
the resolved request (url with params merged by `parse_url`, method, body,
headers) carrying the request's current stored correlation index. -/
theorem c9_send_frame (b : BoltContext) (req : Request)
    (h : resolveTarget b = some req) :
    process b Msg.SendPressed = some (b, true, [send_request req]) ∧
    send_request req =
      { url := parse_url req.url req.params, method := req.method,
        body := req.body, headers := req.headers,
        index := req.response.request_index } := by
  constructor
  · simp [process, h]
  · rfl

/-- Claim C9 witness: sending on a concrete Collections-page state returns
the state unchanged together with the snapshot payload of the resolved
request. -/
theorem c9_witness :
    process cCols Msg.SendPressed =
      some (cCols, true, [send_request Request.new]) ∧
    send_request Request.new =
      { url := parse_url Request.new.url Request.new.params,
        method := Request.new.method, body := Request.new.body,
        headers := Request.new.headers,
        index := Request.new.response.request_index } :=
  c9_send_frame cCols Request.new (by decide)

theorem processPayload_request_index (fmt hl : String → String)
    (resp : Response) :
    (processPayload fmt hl resp).request_index = resp.request_index := by
  unfold processPayload
  split <;> rfl

/-- Claim C10: with an in-bounds selection, the url-changed edit overwrites
both the `url` field and the `name` (display label) of the resolved target
request with the new url string — on the Home page and on the Collections
page alike — and changes nothing else. -/
theorem c10_url_edit :
    (∀ (b : BoltContext) (url : String) (req : Request)
        (reqs : List Request),
      b.page = Page.Home →
      getAt b.main_col.requests b.main_current = some req →
      setAt b.main_col.requests b.main_current
        { req with url := url, name := url } = some reqs →
      process b (Msg.UrlChanged url) =
        some ({ b with main_col := { b.main_col with requests := reqs } },
          true, [])) ∧
    (∀ (b : BoltContext) (url : String) (c0 c1 : Nat) (col : Collection)
        (req : Request) (reqs : List Request) (cols : List Collection),
      b.page = Page.Collections →
      getAt b.col_current 0 = some c0 →
      getAt b.col_current 1 = some c1 →
      getAt b.collections c0 = some col →
      getAt col.requests c1 = some req →
      setAt col.requests c1 { req with url := url, name := url } =
        some reqs →
      setAt b.collections c0 { col with requests := reqs } = some cols →
      process b (Msg.UrlChanged url) =
        some ({ b with collections := cols }, true, [])) := by
  constructor
  · intro b url req reqs hp hg hs
    simp only [process]
    rw [updateCurrentF_home (f := fun req =>
      some { req with url := url, name := url }) hp hg rfl hs]
    rfl
  · intro b url c0 c1 col req reqs cols hp hc0 hc1 hcol hg hs hcs
    have hp2 : b.page ≠ Page.Home := by rw [hp]; decide
    simp only [process]
    rw [updateCurrentF_col (f := fun req =>
      some { req with url := url, name := url }) hp2 hc0 hc1 hcol hg rfl hs
      hcs]
    rfl

/-- Claim C10 witness: editing the url to `"u"` on a concrete Home-page
state rewrites both the url and the name of request 0 and nothing else. -/
theorem c10_witness :
    process cHome2 (Msg.UrlChanged "u") =
      some ({ cHome2 with main_col := { cHome2.main_col with requests :=
        [{ Request.new with url := "u", name := "u" }, secondReq] } },
        true, []) :=
  c10_url_edit.1 cHome2 "u" Request.new
    [{ Request.new with url := "u", name := "u" }, secondReq]
    rfl (by decide) (by decide)

/-- Claim C7: on response arrival, a JSON payload's body is replaced by
`highlight (format body)` before being stored (the raw body is not kept),
a TEXT payload is stored as-is, and on the Home page the processed response
overwrites exactly the targeted request's `response` field. -/
theorem c7_json_formatting :
    (∀ (fmt hl : String → String) (resp : Response),
      resp.response_type = ResponseType.JSON →
        processPayload fmt hl resp =
          { resp with body := hl (fmt resp.body) }) ∧
    (∀ (fmt hl : String → String) (resp : Response),
      resp.response_type = ResponseType.TEXT →
        processPayload fmt hl resp = resp) ∧
    (∀ (fmt hl : String → String) (b : BoltContext) (resp : Response)
        (req : Request) (reqs : List Request),
      b.page = Page.Home →
      getAt b.main_col.requests resp.request_index = some req →
      setAt b.main_col.requests resp.request_index
        { req with response := processPayload fmt hl resp } = some reqs →
      receive_response fmt hl b resp =
        some { b with main_col := { b.main_col with requests := reqs } }) := by
  refine ⟨?_, ?_, ?_⟩
  · intro fmt hl resp h
    unfold processPayload
    rw [if_pos h]
  · intro fmt hl resp h
    unfold processPayload
    rw [if_neg (by rw [h]; decide)]
  · intro fmt hl b resp req reqs hp hg hs
    simp only [receive_response, processPayload_request_index]
    rw [if_pos hp, modifyAtF_of (f := fun req =>
      some { req with response := processPayload fmt hl resp }) hg rfl hs]
    rfl

/-- Claim C7 witness: a concrete JSON payload delivered to a concrete
Home-page state is stored with body `hl (fmt body)` at the targeted
slot. -/
theorem c7_witness :
    processPayload
      (fun s => "fmt:" ++ s) (fun s => "hl:" ++ s)
      { cResp200 with response_type := ResponseType.JSON } =
    { { cResp200 with response_type := ResponseType.JSON } with
      body := "hl:" ++ ("fmt:" ++ "hello") } :=
  c7_json_formatting.1 (fun s => "fmt:" ++ s) (fun s => "hl:" ++ s)
    { cResp200 with response_type := ResponseType.JSON } rfl

/-- Claim C2: selecting request `i` on the Home page stores `i` into that
request's embedded response as its correlation index, and a subsequent Send
emits a payload whose `index` is exactly `i`, unchanged. -/
theorem c2_select_then_send (b : BoltContext) (i : Nat) (req : Request)
    (hp : b.page = Page.Home)
    (hg : getAt b.main_col.requests i = some req) :
    ∃ b1, process b (Msg.SelectRequest i) = some (b1, true, []) ∧
      getAt b1.main_col.requests i =
        some { req with response :=
          { req.response with request_index := i } } ∧
      process b1 Msg.SendPressed = some (b1, true,
        [send_request { req with response :=
          { req.response with request_index := i } }]) ∧
      (send_request { req with response :=
        { req.response with request_index := i } }).index = i := by
  obtain ⟨reqs, hs⟩ := setAt_of_getAt hg
    { req with response := { req.response with request_index := i } }
  refine ⟨{ b with
    main_current := i,
    main_col := { b.main_col with requests := reqs } }, ?_, ?_, ?_, rfl⟩
  · simp only [process]
    rw [modifyAtF_of (f := fun req =>
      some { req with response :=
        { req.response with request_index := i } }) hg rfl hs]
    rfl
  · exact getAt_setAt_self hs
  · have hr : resolveTarget { b with
        main_current := i,
        main_col := { b.main_col with requests := reqs } } =
        some { req with response :=
          { req.response with request_index := i } } := by
      simp only [resolveTarget]
      rw [if_pos hp]
      exact getAt_setAt_self hs
    simp [process, hr]

/-- Claim C2 witness: selecting index 1 of a concrete two-request state
stores correlation index 1, and the Send payload carries index 1. -/
theorem c2_witness :
    ∃ b1, process cHome2 (Msg.SelectRequest 1) = some (b1, true, []) ∧
      getAt b1.main_col.requests 1 =
        some { secondReq with response :=
          { secondReq.response with request_index := 1 } } ∧
      process b1 Msg.SendPressed = some (b1, true,
        [send_request { secondReq with response :=
          { secondReq.response with request_index := 1 } }]) ∧
      (send_request { secondReq with response :=
        { secondReq.response with request_index := 1 } }).index = 1 :=
  c2_select_then_send cHome2 1 secondReq rfl (by decide)

/-- Claim C1, counterexample to the claim as stated: in the concrete
scenario (two requests, select 0, Send, select 1, response of status 200
arrives carrying the Send payload's correlation index) the response is
stored into index 0 — the slot named by the payload's correlation index —
while index 1 keeps its prior unsent response (status 0). -/
theorem c1_counterexample :
    ((misroutedScenario id id cHome2 cResp200).bind
      (fun x => getAt x.1.main_col.requests 0)).map
      (fun r => r.response.status) = some 200 ∧
    ((misroutedScenario id id cHome2 cResp200).bind
      (fun x => getAt x.1.main_col.requests 1)).map
      (fun r => r.response.status) = some 0 ∧
    (200 : Nat) ≠ 0 := by
  refine ⟨by decide, by decide, by decide⟩

/-- Claim C1 (corrected): in the misrouted-response scenario on the Home
page, the arriving response is written into index 0 — the slot named by the
payload's `correlationIndex` (`request_index`) — not into the currently
selected index 1. On the Home page, response arrival addresses its target
by the payload's correlation index; only on the Collections page does it
use the current navigation state. Index 1 keeps its own response, with the
correlation index 1 stored at selection time. -/
theorem c1_home_routes_by_correlation (fmt hl : String → String)
    (lnk : Option Unit) (mc : Nat) (cc : List Nat) (nm : String) (cp : Bool)
    (cols : List Collection) (r0 r1 : Request) (rest : List Request)
    (resp : Response) :
    misroutedScenario fmt hl
      ⟨lnk, Page.Home, mc, cc, ⟨nm, r0 :: r1 :: rest, cp⟩, cols⟩ resp =
      some (⟨lnk, Page.Home, 1, cc,
        ⟨nm,
          { r0 with response :=
            processPayload fmt hl { resp with request_index := 0 } } ::
          { r1 with response :=
            { r1.response with request_index := 1 } } :: rest, cp⟩,
        cols⟩, 0) := by
  simp [misroutedScenario, process, receive_response, modifyAtF, getAt,
    resolveTarget, send_request, processPayload_request_index]

theorem mainInv_step {b : BoltContext} {msg : Msg}
    {out : BoltContext × Bool × List Payload}
    (hInv : MainInv b) (hm : isAddRemove msg = true)
    (h : process b msg = some out) : MainInv out.1 := by
  cases msg <;> simp [isAddRemove] at hm
  case AddRequest =>
    simp only [process] at h
    cases h
    constructor
    · intro _
      show b.main_current < (b.main_col.requests ++ [_]).length
      rw [List.length_append]
      rcases eq_or_ne b.main_col.requests [] with he | hne
      · have h0 := hInv.2 he
        rw [he, h0]
        decide
      · have := hInv.1 hne
        simp only [List.length_cons, List.length_nil]
        omega
    · intro hemp
      exact absurd hemp (by simp)
  case RemoveRequest i =>
    simp only [process, Option.map_eq_some'] at h
    obtain ⟨reqs, hr, rfl⟩ := h
    have hlen := length_removeAt hr
    dsimp only
    constructor
    · intro hne
      have hpos : 0 < reqs.length := List.length_pos.mpr hne
      show (if reqs.length > 0 ∧ b.main_current > reqs.length - 1
        then reqs.length - 1 else b.main_current) < reqs.length
      by_cases hc : reqs.length > 0 ∧ b.main_current > reqs.length - 1
      · rw [if_pos hc]
        omega
      · rw [if_neg hc]
        push_neg at hc
        have := hc hpos
        omega
    · intro hemp
      have hemp2 : reqs = [] := hemp
      have h1 : b.main_col.requests.length = 1 := by
        rw [hlen, hemp2]
        rfl
      have hne' : b.main_col.requests ≠ [] := by
        intro hx
        rw [hx] at h1
        cases h1
      have h2 := hInv.1 hne'
      rw [h1] at h2
      show (if reqs.length > 0 ∧ b.main_current > reqs.length - 1
        then reqs.length - 1 else b.main_current) = 0
      rw [hemp2]
      simp only [List.length_nil]
      rw [if_neg (by omega)]
      omega

theorem runSeq_mainInv (msgs : List Msg) : ∀ (b b' : BoltContext),
    MainInv b → (∀ m ∈ msgs, isAddRemove m = true) →
    runSeq b msgs = some b' → MainInv b' := by
  induction msgs with
  | nil =>
    intro b b' hInv _ h
    simp only [runSeq] at h
    cases h
    exact hInv
  | cons m rest ih =>
    intro b b' hInv hall h
    simp only [runSeq] at h
    cases hp : process b m with
    | none => rw [hp] at h; cases h
    | some out =>
      obtain ⟨b2, rd, s⟩ := out
      rw [hp] at h
      exact ih b2 b'
        (mainInv_step hInv (hall m (List.mem_cons_self m rest)) hp)
        (fun x hx => hall x (List.mem_cons_of_mem m hx)) h

/-- Claim C3: over any sequence of add-request/remove-request actions on
the working collection that the reducer completes, the selected index stays
in `[0, len-1]` whenever the collection is non-empty (removal clamps the
index, addition appends and leaves it unchanged); the start state satisfies
the selection invariant of §3. -/
theorem c3_selection_invariant (msgs : List Msg) (b b' : BoltContext)
    (hInv : MainInv b) (hall : ∀ m ∈ msgs, isAddRemove m = true)
    (hrun : runSeq b msgs = some b') :
    b'.main_col.requests ≠ [] →
      b'.main_current < b'.main_col.requests.length :=
  (runSeq_mainInv msgs b b' hInv hall hrun).1

/-- Claim C3 witness: add, add, remove 1 from the fresh context keeps the
selection in bounds. -/
theorem c3_witness :
    MainInv BoltContext.new ∧
    (cw3.main_col.requests ≠ [] →
      cw3.main_current < cw3.main_col.requests.length) :=
  ⟨by decide, c3_selection_invariant
    [Msg.AddRequest, Msg.AddRequest, Msg.RemoveRequest 1]
    BoltContext.new cw3 (by decide) (by decide) (by decide)⟩

theorem stateOK_of_updateCurrentF_map {b : BoltContext}
    {f : Request → Option Request} {out : BoltContext × Bool × List Payload}
    (hok : StateOK b)
    (h : (updateCurrentF b f).map
      (fun b2 => (b2, true, ([] : List Payload))) = some out)
    (hf : ∀ r r', resolveTarget b = some r → ReqOK r → f r = some r' →
      ReqOK r') : StateOK out.1 := by
  obtain ⟨b2, hb2, rfl⟩ := Option.map_eq_some'.1 h
  exact updateCurrentF_pres hok hb2 hf

theorem receive_response_pres {fmt hl : String → String} {b b' : BoltContext}
    {resp : Response} (hok : StateOK b)
    (h : receive_response fmt hl b resp = some b') : StateOK b' := by
  simp only [receive_response] at h
  by_cases hp : b.page = Page.Home
  · rw [if_pos hp] at h
    obtain ⟨reqs, hmod, rfl⟩ := Option.map_eq_some'.1 h
    refine ⟨?_, hok.2⟩
    intro r hr
    rcases mem_modifyAtF hmod hr with h1 | ⟨a, hga, hfa⟩
    · exact hok.1 r h1
    · cases hfa
      exact hok.1 a (getAt_mem hga)
  · rw [if_neg hp] at h
    cases h0 : getAt b.col_current 0 with
    | none => simp [h0] at h
    | some c0 =>
      cases h1 : getAt b.col_current 1 with
      | none => simp [h0, h1] at h
      | some c1 =>
        simp only [h0, h1] at h
        obtain ⟨cols, hmod, rfl⟩ := Option.map_eq_some'.1 h
        refine ⟨hok.1, ?_⟩
        intro c hc r hr
        rcases mem_modifyAtF hmod hc with h2 | ⟨col, hga, hgc⟩
        · exact hok.2 c h2 r hr
        · obtain ⟨reqs2, hmod2, rfl⟩ := Option.map_eq_some'.1 hgc
          rcases mem_modifyAtF hmod2 hr with h3 | ⟨a, hga2, hfa⟩
          · exact hok.2 col (getAt_mem hga) r h3
          · cases hfa
            exact hok.2 col (getAt_mem hga) a (getAt_mem hga2)

theorem process_stateOK {b : BoltContext} {msg : Msg}
    {out : BoltContext × Bool × List Payload}
    (hok : StateOK b) (hrm : removeOk b msg = true)
    (h : process b msg = some out) : StateOK out.1 := by
  cases msg with
  | Nothing => cases h; exact hok
  | Update => cases h; exact hok
  | HelpPressed => cases h; exact hok
  | ReceivedResponse => cases h; exact hok
  | SwitchPage p => cases h; exact hok
  | SendPressed =>
    simp only [process, Option.map_eq_some'] at h
    obtain ⟨req, _, rfl⟩ := h
    exact hok
  | SelectedMethod m =>
    exact stateOK_of_updateCurrentF_map hok h
      (fun r r' _ hOK hf => by cases hf; exact hOK)
  | MethodChanged m =>
    exact stateOK_of_updateCurrentF_map hok h
      (fun r r' _ hOK hf => by cases hf; exact hOK)
  | ReqBodyPressed =>
    exact stateOK_of_updateCurrentF_map hok h
      (fun r r' _ hOK hf => by cases hf; exact hOK)
  | ReqHeadersPressed =>
    exact stateOK_of_updateCurrentF_map hok h
      (fun r r' _ hOK hf => by cases hf; exact hOK)
  | ReqParamsPressed =>
    exact stateOK_of_updateCurrentF_map hok h
      (fun r r' _ hOK hf => by cases hf; exact hOK)
  | RespBodyPressed =>
    exact stateOK_of_updateCurrentF_map hok h
      (fun r r' _ hOK hf => by cases hf; exact hOK)
  | RespHeadersPressed =>
    exact stateOK_of_updateCurrentF_map hok h
      (fun r r' _ hOK hf => by cases hf; exact hOK)
  | UrlChanged url =>
    exact stateOK_of_updateCurrentF_map hok h
      (fun r r' _ hOK hf => by cases hf; exact hOK)
  | BodyChanged body =>
    exact stateOK_of_updateCurrentF_map hok h
      (fun r r' _ hOK hf => by cases hf; exact hOK)
  | AddHeader =>
    exact stateOK_of_updateCurrentF_map hok h
      (fun r r' _ hOK hf => by
        cases hf
        exact ⟨by simp, hOK.2⟩)
  | AddParam =>
    exact stateOK_of_updateCurrentF_map hok h
      (fun r r' _ hOK hf => by
        cases hf
        exact ⟨hOK.1, by simp⟩)
  | RemoveHeader i =>
    refine stateOK_of_updateCurrentF_map hok h
      (fun r r' hres hOK hf => ?_)
    obtain ⟨hs2, hrem, rfl⟩ := Option.map_eq_some'.1 hf
    have hlen2 : 2 ≤ r.headers.length := by
      simp [removeOk, hres] at hrm
      exact hrm
    have hl := length_removeAt hrem
    refine ⟨?_, hOK.2⟩
    show hs2 ≠ []
    exact List.length_pos.mp (by omega)
  | RemoveParam i =>
    refine stateOK_of_updateCurrentF_map hok h
      (fun r r' hres hOK hf => ?_)
    obtain ⟨ps2, hrem, rfl⟩ := Option.map_eq_some'.1 hf
    have hlen2 : 2 ≤ r.params.length := by
      simp [removeOk, hres] at hrm
      exact hrm
    have hl := length_removeAt hrem
    refine ⟨hOK.1, ?_⟩
    show ps2 ≠ []
    exact List.length_pos.mp (by omega)
  | HeaderChanged i hdr =>
    refine stateOK_of_updateCurrentF_map hok h
      (fun r r' _ hOK hf => ?_)
    obtain ⟨hs2, hset, rfl⟩ := Option.map_eq_some'.1 hf
    have hl := length_setAt hset
    refine ⟨?_, hOK.2⟩
    show hs2 ≠ []
    have h2 := List.length_pos.mpr hOK.1
    exact List.length_pos.mp (by omega)
  | ParamChanged i prm =>
    refine stateOK_of_updateCurrentF_map hok h
      (fun r r' _ hOK hf => ?_)
    obtain ⟨ps2, hset, rfl⟩ := Option.map_eq_some'.1 hf
    have hl := length_setAt hset
    refine ⟨hOK.1, ?_⟩
    show ps2 ≠ []
    have h2 := List.length_pos.mpr hOK.2
    exact List.length_pos.mp (by omega)
  | AddCollection =>
    cases h
    refine ⟨hok.1, ?_⟩
    intro c hc r hr
    rcases List.mem_append.mp hc with h1 | h1
    · exact hok.2 c h1 r hr
    · rw [List.mem_singleton.mp h1] at hr
      simp [Collection.new] at hr
  | RemoveCollection i =>
    simp only [process, Option.map_eq_some'] at h
    obtain ⟨cols, hrem, rfl⟩ := h
    exact ⟨hok.1, fun c hc => hok.2 c (mem_removeAt hrem hc)⟩
  | AddRequest =>
    cases h
    refine ⟨?_, hok.2⟩
    intro r hr
    rcases List.mem_append.mp hr with h1 | h1
    · exact hok.1 r h1
    · rw [List.mem_singleton.mp h1]
      exact ⟨by simp [Request.new], by simp [Request.new]⟩
  | AddToCollection i =>
    simp only [process, Option.map_eq_some'] at h
    obtain ⟨cols, hmod, rfl⟩ := h
    refine ⟨hok.1, ?_⟩
    intro c hc r hr
    rcases mem_modifyAtF hmod hc with h1 | ⟨col, hga, hgc⟩
    · exact hok.2 c h1 r hr
    · cases hgc
      rcases List.mem_append.mp hr with h2 | h2
      · exact hok.2 col (getAt_mem hga) r h2
      · rw [List.mem_singleton.mp h2]
        exact ⟨by simp [Request.new], by simp [Request.new]⟩
  | ToggleCollapsed i =>
    simp only [process, Option.map_eq_some'] at h
    obtain ⟨cols, hmod, rfl⟩ := h
    refine ⟨hok.1, ?_⟩
    intro c hc r hr
    rcases mem_modifyAtF hmod hc with h1 | ⟨col, hga, hgc⟩
    · exact hok.2 c h1 r hr
    · cases hgc
      exact hok.2 col (getAt_mem hga) r hr
  | RemoveRequest i =>
    simp only [process, Option.map_eq_some'] at h
    obtain ⟨reqs, hrem, rfl⟩ := h
    exact ⟨fun r hr => hok.1 r (mem_removeAt hrem hr), hok.2⟩
  | RemoveFromCollection c0 r0 =>
    simp only [process, Option.map_eq_some'] at h
    obtain ⟨cols, hmod, rfl⟩ := h
    refine ⟨hok.1, ?_⟩
    intro c hc r hr
    rcases mem_modifyAtF hmod hc with h1 | ⟨col, hga, hgc⟩
    · exact hok.2 c h1 r hr
    · obtain ⟨reqs2, hrem2, rfl⟩ := Option.map_eq_some'.1 hgc
      exact hok.2 col (getAt_mem hga) r (mem_removeAt hrem2 hr)
  | SelectRequest i =>
    simp only [process, Option.map_eq_some'] at h
    obtain ⟨reqs, hmod, rfl⟩ := h
    refine ⟨?_, hok.2⟩
    intro r hr
    rcases mem_modifyAtF hmod hr with h1 | ⟨a, hga, hfa⟩
    · exact hok.1 r h1
    · cases hfa
      exact hok.1 a (getAt_mem hga)
  | SelectFromCollection c0 r0 =>
    simp only [process, Option.map_eq_some'] at h
    obtain ⟨cols, hmod, rfl⟩ := h
    refine ⟨hok.1, ?_⟩
    intro c hc r hr
    rcases mem_modifyAtF hmod hc with h1 | ⟨col, hga, hgc⟩
    · exact hok.2 c h1 r hr
    · obtain ⟨reqs2, hmod2, rfl⟩ := Option.map_eq_some'.1 hgc
      rcases mem_modifyAtF hmod2 hr with h2 | ⟨a, hga2, hfa⟩
      · exact hok.2 col (getAt_mem hga) r h2
      · cases hfa
        exact hok.2 col (getAt_mem hga) a (getAt_mem hga2)

/-- Claim C5 (corrected): headers and params of every reachable request stay
non-empty across every reducer transition and every response arrival,
provided remove-header/remove-param is never invoked when the resolved
target has only one row left (the §4.3 caller contract); without that
proviso the reducer does empty the list (see the counterexample). -/
theorem c5_rows_stay_nonempty :
    (∀ (b : BoltContext) (msg : Msg)
        (out : BoltContext × Bool × List Payload),
      StateOK b → removeOk b msg = true → process b msg = some out →
        StateOK out.1) ∧
    (∀ (fmt hl : String → String) (b : BoltContext) (resp : Response)
        (b' : BoltContext),
      StateOK b → receive_response fmt hl b resp = some b' → StateOK b') :=
  ⟨fun _ _ _ hok hrm h => process_stateOK hok hrm h,
   fun _ _ _ _ _ hok h => receive_response_pres hok h⟩

/-- Claim C5, counterexample to the claim as stated: removing header 0 of a
request that has exactly one header row is a core transition after which
that request's `headers` is the empty sequence. -/
theorem c5_counterexample :
    ((process cHome2 (Msg.RemoveHeader 0)).bind
      (fun out => getAt out.1.main_col.requests 0)).map
      (fun r => r.headers) = some [] := by
  decide

/-- Claim C5 witness: removing header 0 of a two-row request keeps every
reachable request's headers and params non-empty. -/
theorem c5_witness :
    StateOK cTwoHeaders ∧
    removeOk cTwoHeaders (Msg.RemoveHeader 0) = true ∧
    StateOK (({ cTwoHeaders with main_col :=
        { cTwoHeaders.main_col with requests := [Request.new] } },
      true, ([] : List Payload)) :
        BoltContext × Bool × List Payload).1 :=
  ⟨by decide, by decide,
    c5_rows_stay_nonempty.1 cTwoHeaders (Msg.RemoveHeader 0)
      ({ cTwoHeaders with main_col :=
        { cTwoHeaders.main_col with requests := [Request.new] } },
        true, [])
      (by decide) (by decide) (by decide)⟩
